import Mathlib

/-!
Verification of the ATT statistical analysis layer (ATT/algorithm/tools.py and
ATT/corefunc/analysebase.py) against its natural-language specification.

Modelling conventions:
* Python floats are modelled by `FF := Option ℚ`: `some q` is a finite value,
  `none` is the NaN sentinel.  The IEEE fragment exercised by the code is
  NaN-propagation through arithmetic; `±inf` never arises on the inputs the
  claims quantify over (every division either has a nonzero denominator or a
  `0`/NaN numerator), so division by zero is mapped to `none`.
* numpy arrays are modelled by lists; elementwise vectorized operations become
  maps over (zips of) lists, which agrees with numpy on equally shaped inputs.
* 3-D volumes are lists of cells `(Vox3 × value)` in row-major order; two
  volumes of the same shape are aligned cell by cell (`List.zip`).
* Python exceptions are modelled by `PyResult`/`PyError`: `PyError.exc` is an
  explicitly `raise`d `Exception`, while `attributeError`, `unboundLocal` and
  `zeroDivision` are interpreter-generated failures.
-/

/-- Python run-time failures, distinguishing explicit raises from
interpreter-generated errors. -/
inductive PyError where
  | exc : String → PyError
  | attributeError : String → PyError
  | unboundLocal : String → PyError
  | zeroDivision : PyError
deriving DecidableEq, Repr

/-- Result of a Python call: a value or an exception. -/
inductive PyResult (α : Type) where
  | ok : α → PyResult α
  | error : PyError → PyResult α
deriving DecidableEq, Repr

/-- An IEEE float restricted to the fragment the code exercises:
`some q` is a finite value, `none` is NaN. -/
abbrev FF := Option ℚ

/-- NaN-propagating addition. -/
def fadd (a b : FF) : FF :=
  match a, b with
  | some x, some y => some (x + y)
  | _, _ => none

/-- Multiplication of a float by a finite scalar; `NaN * w = NaN` (also for
`w = 0`, as in IEEE). -/
def fmulw (a : FF) (w : ℚ) : FF := a.map (fun x => x * w)

/-- NaN-propagating division.  A zero denominator yields `none`: IEEE gives
NaN for `0/0` and `NaN/0`, the only zero-denominator cases reachable in this
development (finite nonzero over zero, i.e. `±inf`, never arises here). -/
def fdiv (a b : FF) : FF :=
  match a, b with
  | some x, some y => if y = 0 then none else some (x / y)
  | _, _ => none

/-- Division of two finite values, with the same zero-denominator convention
as `fdiv`. -/
def fdivq (x y : ℚ) : FF := if y = 0 then none else some (x / y)

/-- tools.py lines 13-27: voxel coordinates to MNI coordinates,
`MNI = ((45 - v0)*s0, (v1 - 63)*s1, (v2 - 36)*s2)`. -/
def vox2MNI (vox : ℚ × ℚ × ℚ) (size : ℚ × ℚ × ℚ) : ℚ × ℚ × ℚ :=
  ((45 - vox.1) * size.1, (vox.2.1 - 63) * size.2.1, (vox.2.2 - 36) * size.2.2)

/-- tools.py lines 29-43: MNI coordinates to voxel coordinates,
`vox = (45 - M0/s0, 63 + M1/s1, 36 + M2/s2)`. -/
def MNI2vox (MNI : ℚ × ℚ × ℚ) (size : ℚ × ℚ × ℚ) : ℚ × ℚ × ℚ :=
  (45 - MNI.1 / size.1, 63 + MNI.2.1 / size.2.1, 36 + MNI.2.2 / size.2.2)

/-- tools.py lines 45-68, `caldice`.  Volumes are flattened to label lists
(the 3-D structure only enters through elementwise comparisons and sums).
Note the source compares both volumes against `i+1` for the i-th entry of
`label`; the values stored in `label` are never read, only its length. -/
def caldice (data1 data2 : List ℤ) (label : List ℤ) : List (Option ℚ) :=
  (List.range label.length).map (fun (i : ℕ) =>
    let l : ℤ := (i : ℤ) + 1
    if (data1.zip data2).any (fun p => decide (p.1 = l) || decide (p.2 = l)) then
      some (2 * ((data1.zip data2).countP (fun p => decide (p.1 = l) && decide (p.2 = l)) : ℚ) /
        ((data1.countP (fun a => decide (a = l)) : ℚ) + (data2.countP (fun a => decide (a = l)) : ℚ)))
    else none)

/-- The Dice value the specification prescribes for one label value `l`:
`2|A∩B| / (|A|+|B|)` where `A`, `B` are the voxel sets carrying label `l`,
and NaN when `l` is absent from the union of both volumes. -/
def diceSpecAt (d1 d2 : List ℤ) (l : ℤ) : Option ℚ :=
  if l ∈ d1 ∨ l ∈ d2 then
    some (2 * ((d1.zip d2).countP (fun p => decide (p.1 = l) && decide (p.2 = l)) : ℚ) /
      ((d1.countP (fun a => decide (a = l)) : ℚ) + (d2.countP (fun a => decide (a = l)) : ℚ)))
  else none

/-- The per-label Dice sequence the specification prescribes: entry `i` is
the Dice coefficient at label value `label[i]`. -/
def diceSpecList (d1 d2 : List ℤ) (label : List ℤ) : List (Option ℚ) :=
  label.map (diceSpecAt d1 d2)

/-- tools.py lines 176-179: the default weight pair of one subject, derived
from missingness (0 where the value is NaN, else 1). -/
def defaultWeight (a b : FF) : ℚ × ℚ :=
  (if a = none then 0 else 1, if b = none then 0 else 1)

/-- tools.py lines 180-183, the `meth == 'single'` branch for one subject:
NaN values are first replaced by 0, then the weighted average
`(l*w0 + r*w1)/(w0 + w1)` is taken. -/
def mergeSingle (a b : FF) (w : ℚ × ℚ) : FF :=
  fdivq (a.getD 0 * w.1 + b.getD 0 * w.2) (w.1 + w.2)

/-- tools.py lines 184-187, the `meth == 'both'` branch for one subject:
a total weight below 2 is zeroed, then `(l*w0 + r*w1)/total` is taken on the
original (possibly NaN) values. -/
def mergeBoth (a b : FF) (w : ℚ × ℚ) : FF :=
  let total := w.1 + w.2
  let total := if total < 2 then 0 else total
  fdiv (fadd (fmulw a w.1) (fmulw b w.2)) (some total)

/-- tools.py line 190: `merge_region[merge_region == 0] = np.nan`
(`NaN == 0` is false, so NaN entries pass through unchanged). -/
def zeroToNaN (x : FF) : FF := if x = some 0 then none else x

/-- tools.py lines 154-191, `hemi_merge`.  The vectorized numpy arithmetic on
equally long vectors is rendered as a map over the zipped subject lists. -/
def hemi_merge (left right : List FF) (meth : String) (weight : Option (List (ℚ × ℚ))) :
    PyResult (List FF) :=
  if left.length ≠ right.length then
    .error (.exc "Subject numbers of left and right feature data should be equal")
  else
    let w := weight.getD ((left.zip right).map (fun p => defaultWeight p.1 p.2))
    if meth = "single" then
      .ok ((((left.zip right).zip w).map (fun p => mergeSingle p.1.1 p.1.2 p.2)).map zeroToNaN)
    else if meth = "both" then
      .ok ((((left.zip right).zip w).map (fun p => mergeBoth p.1.1 p.1.2 p.2)).map zeroToNaN)
    else .error (.exc "meth will be both or single")

/-- The merged value the amended claim C4 prescribes for one subject under
`method = 'both'` and default weights: NaN when a side is missing or when the
two present values average to exactly 0, else the average. -/
def bothSpec (a b : FF) : FF :=
  match a, b with
  | some x, some y => if x + y = 0 then none else some ((x + y) / 2)
  | _, _ => none

/-- Clamped indexing into a list, `s[min i (length-1)]` with default 0.
numpy's linear-interpolation percentile only reads the upper neighbour when
the fractional part is nonzero, in which case the clamp is the identity. -/
def nthClamp (s : List ℚ) (i : ℕ) : ℚ := s.getD (min i (s.length - 1)) 0

/-- Linear interpolation into a sorted list at fractional position `p`,
as numpy's default percentile interpolation does. -/
def interpAt (s : List ℚ) (p : ℚ) : ℚ :=
  nthClamp s (⌊p⌋).toNat +
    (p - ((⌊p⌋).toNat : ℚ)) * (nthClamp s ((⌊p⌋).toNat + 1) - nthClamp s (⌊p⌋).toNat)

/-- `np.percentile(xs, q)` with the default linear interpolation: sort, then
interpolate at position `(q/100)·(n-1)`. -/
def percentile (xs : List ℚ) (q : ℚ) : ℚ :=
  interpAt (List.insertionSort (· ≤ ·) xs) (q / 100 * ((xs.length : ℚ) - 1))

/-- tools.py lines 214-218 and 226-227: the `meth == 'iqr'` branch of
`removeoutlier`.  Inputs are NaN-free (the scope of the claims); `none` in
the output marks an entry set to NaN.  An entry is an outlier when
`x < Q1 + thr0*IQR` or `x >= Q3 + thr1*IQR`; the returned count is the number
of `True` entries of the outlier mask. -/
def removeoutlier_iqr (data : List ℚ) (thr : ℚ × ℚ) : ℕ × List (Option ℚ) :=
  let q1 := percentile data 25
  let q3 := percentile data 75
  let f_iqr := q3 - q1
  let outlier := fun x : ℚ => decide (x < q1 + thr.1 * f_iqr) || decide (q3 + thr.2 * f_iqr ≤ x)
  (data.countP outlier, data.map (fun x => if outlier x then none else some x))

/-- A voxel index triple. -/
structure Vox3 where
  x : ℕ
  y : ℕ
  z : ℕ
deriving DecidableEq, Repr

/-- `np.unique`: the sorted list of distinct values. -/
def npUnique (xs : List ℤ) : List ℤ := (List.insertionSort (· ≤ ·) xs).dedup

/-- `np.argmax` over a row-major cell list: the coordinate of the first
occurrence of the maximal value (`⟨0,0,0⟩` on the empty list, which the
caller guards against). -/
def firstArgmax (l : List (Vox3 × ℚ)) : Vox3 :=
  match l with
  | [] => ⟨0, 0, 0⟩
  | h :: t => (t.foldl (fun b c => if c.2 > b.2 then c else b) h).1

/-- tools.py lines 324-359, `get_coordinate`.  `atlas` and `mask` are
same-shape volumes as row-major cell lists.  For the i-th of `labelnum` rows
the ROI signal is `atlas` masked to label `i+1`; an all-zero signal yields a
NaN row.  Note the `center` branch is the source's
`np.mean(np.transpose(np.nonzero(x)))`: the mean over the whole flattened
coordinate matrix (no `axis=0`), a scalar that numpy broadcasts into all
three slots of the coordinate row.  When `labelnum` is `None` the source
takes `np.max` of the labels (modelled with a fold; the claims always pass a
label count). -/
def get_coordinate (atlas : List (Vox3 × ℚ)) (mask : List (Vox3 × ℤ)) (size : ℚ × ℚ × ℚ)
    (method : String) (labelnum : Option ℕ) : PyResult (List (Option (ℚ × ℚ × ℚ))) :=
  let labels := (npUnique (mask.map Prod.snd)).drop 1
  let ln : ℕ :=
    match labelnum with
    | some k => k
    | none => (labels.foldl max 0).toNat
  if method ≠ "peak" ∧ method ≠ "center" then .error (.exc "Method contains peak or center")
  else .ok ((List.range ln).map (fun (i : ℕ) =>
    let l : ℤ := (i : ℤ) + 1
    let roisignal := (atlas.zip mask).map (fun p => (p.1.1, if p.2.2 = l then p.1.2 else 0))
    if roisignal.any (fun c => decide (c.2 ≠ 0)) then
      let vox : ℚ × ℚ × ℚ :=
        if method = "peak" then
          let pk := firstArgmax roisignal
          ((pk.x : ℚ), (pk.y : ℚ), (pk.z : ℚ))
        else
          let nz := roisignal.filter (fun c => decide (c.2 ≠ 0))
          let m : ℚ :=
            (nz.map (fun c => ((c.1.x : ℚ) + (c.1.y : ℚ) + (c.1.z : ℚ)))).sum / (3 * (nz.length : ℚ))
          (m, m, m)
      some (vox2MNI vox size)
    else none))

/-- analysebase.py lines 358-374: the state `PositionRelationship.__init__`
leaves behind.  `targdata` mirrors the dynamic attribute `self._targdata`,
which `__init__` never assigns. -/
structure PositionRelationship where
  roimask : List (Vox3 × ℤ)
  roinumber : ℕ
  targdata : Option (List (Vox3 × ℤ)) := none

/-- analysebase.py lines 363-374, `PositionRelationship.__init__`:
`_masklabel = np.unique(roimask)[1:]`, `_roinumber` defaults to its size,
and `_targdata` is left unassigned. -/
def PositionRelationship.init (roimask : List (Vox3 × ℤ)) (roinumber : Option ℕ) :
    PositionRelationship :=
  let masklabel := (npUnique (roimask.map Prod.snd)).drop 1
  { roimask := roimask
    roinumber := roinumber.getD masklabel.length
    targdata := none }

/-- analysebase.py lines 376-420, `PositionRelationship.template_overlap`.
Line 395 reads `self._targdata`, which `__init__` never assigns, so the call
raises AttributeError before any computation whenever that attribute is
missing; the remainder embeds the loop that would run had it been set.  In
the `percent` branch the denominator is the ROI-mask voxel count at value
`vali` — the TEMPLATE label — exactly as on source line 411, and a zero count
is a caught ZeroDivisionError, i.e. NaN.  An invalid `para` only raises once
the doubly nested loop body executes, so with an empty loop range it returns
the (never-read, hence empty-dimensioned) `np.empty` array instead. -/
def template_overlap (self : PositionRelationship) (template : List (Vox3 × ℤ))
    (para : String) : PyResult (List (List (Option ℚ))) :=
  match self.targdata with
  | none => .error (.attributeError "_targdata")
  | some targ =>
    if template.length ≠ targ.length then
      .error (.exc "template should have the same shape with target data")
    else
      let templabel := (npUnique (template.map Prod.snd)).drop 1
      let roivals := self.roimask.map Prod.snd
      let tvals := template.map Prod.snd
      let ext := ((roivals.zip tvals).filter (fun p => decide (p.1 ≠ 0))).filter
        (fun p => decide (p.2 ≠ 0))
      if para ≠ "percent" ∧ para ≠ "amount" ∧ para ≠ "dice" then
        if templabel ≠ [] ∧ self.roinumber ≠ 0 then
          .error (.exc "para should be percent or amount or dice, please retype")
        else .ok (templabel.map (fun _ => List.replicate self.roinumber none))
      else
        .ok (templabel.map (fun vali =>
          (List.range self.roinumber).map (fun (j : ℕ) =>
            let valj : ℤ := (j : ℤ) + 1
            let inter := (ext.filter (fun p => decide (p.2 = vali) && decide (p.1 = valj))).length
            if para = "percent" then
              let den := (roivals.filter (fun v => decide (v = vali))).length
              if den = 0 then none else some ((inter : ℚ) / (den : ℚ))
            else if para = "amount" then some ((inter : ℚ))
            else
              some (2 * (inter : ℚ) /
                (((tvals.filter (fun v => decide (v = vali))).length : ℚ) +
                  ((roivals.filter (fun v => decide (v = valj))).length : ℚ))))))

/-- Squared Euclidean distance between two coordinate triples. -/
def sqdist3 (u v : ℚ × ℚ × ℚ) : ℚ :=
  (u.1 - v.1) ^ 2 + (u.2.1 - v.2.1) ^ 2 + (u.2.2 - v.2.2) ^ 2

/-- analysebase.py lines 422-444, `PositionRelationship.roidistance`,
specialized to `metric = 'euclidean'` and with every matrix entry SQUARED:
the scipy euclidean pdist the source stores is the square root of the entry
computed here, and the square root is injective on nonnegative values, so
two distance matrices agree exactly when these squared matrices do.
`get_coordinate` is called without a voxel size, i.e. with its default
`[2,2,2]`; a NaN coordinate row yields NaN distances. -/
def roidistance_sq (self : PositionRelationship) (targdata : List (Vox3 × ℚ))
    (extloc : String) : PyResult (List (List (Option ℚ))) :=
  if self.roimask.length ≠ targdata.length then
    .error (.exc "targdata shape should have the save shape as target data")
  else
    match get_coordinate targdata self.roimask (2, 2, 2) extloc (some self.roinumber) with
    | .error e => .error e
    | .ok peakcoord =>
      .ok (peakcoord.map (fun ci => peakcoord.map (fun cj =>
        match ci, cj with
        | some u, some v => some (sqdist3 u v)
        | _, _ => none)))

/-- The cross-validation iterator handed to sklearn. -/
inductive CVChoice where
  | kfold : ℕ → ℕ → Bool → CVChoice
  | shufflesplit : ℕ → ℕ → ℚ → ℕ → CVChoice
deriving DecidableEq, Repr

/-- tools.py lines 426-456, `permutation_cross_validation`, up to the value
reaching the `cv` argument of `sklearn.cross_validation.permutation_test_score`
(the scoring itself is external library code).  `kfold` builds
`KFold(nsubj, n_fold, shuffle)`; `shufflesplit` builds
`ShuffleSplit(nsubj, n_iter=100, test_size=1/n_fold, random_state=0)`.
Any other `cvmeth` leaves the local variable `cvmethod` unassigned — there is
no `else` branch — so Python raises UnboundLocalError at the call site rather
than an explicitly raised unknown-method exception. -/
def permutation_cross_validation_cv (nsubj n_fold : ℕ) (isshuffle : Bool)
    (cvmeth : String) : PyResult CVChoice :=
  if cvmeth = "kfold" then .ok (.kfold nsubj n_fold isshuffle)
  else if cvmeth = "shufflesplit" then
    if n_fold = 0 then .error .zeroDivision
    else .ok (.shufflesplit nsubj 100 (1 / (n_fold : ℚ)) 0)
  else .error (.unboundLocal "cvmethod")

/-- The lower edge `Q1 + t·IQR` of the iqr outlier interval, as the
specification words it. -/
def iqrLowBound (xs : List ℚ) (t : ℚ) : ℚ :=
  percentile xs 25 + t * (percentile xs 75 - percentile xs 25)

/-- The upper edge `Q3 + t·IQR` of the iqr outlier interval, as the
specification words it. -/
def iqrHighBound (xs : List ℚ) (t : ℚ) : ℚ :=
  percentile xs 75 + t * (percentile xs 75 - percentile xs 25)

/-- Claim C3 failing input: a 1×1×4 volume whose mask holds two disjoint
single-voxel ROIs, label 1 at voxel (0,0,0) and label 2 at voxel (0,0,3). -/
def maskC3 : List (Vox3 × ℤ) :=
  [(⟨0, 0, 0⟩, 1), (⟨0, 0, 1⟩, 0), (⟨0, 0, 2⟩, 0), (⟨0, 0, 3⟩, 2)]

/-- Claim C3 failing input: a target volume on the same 1×1×4 box, nonzero
exactly on the two ROI voxels (value 5 at (0,0,0), value 7 at (0,0,3)). -/
def targC3 : List (Vox3 × ℚ) :=
  [(⟨0, 0, 0⟩, 5), (⟨0, 0, 1⟩, 0), (⟨0, 0, 2⟩, 0), (⟨0, 0, 3⟩, 7)]

/-! ## Helper lemmas -/

/-- The final zero-to-NaN replacement never lets an exact 0 through. -/
theorem zeroToNaN_ne_some_zero (y : FF) : zeroToNaN y ≠ some 0 := by
  unfold zeroToNaN
  split <;> simp_all

/-- For equally long lists, elementwise label search over the zip is
membership in either list. -/
theorem zip_any_mem (d1 d2 : List ℤ) (l : ℤ) (h : d1.length = d2.length) :
    ((d1.zip d2).any (fun p => decide (p.1 = l) || decide (p.2 = l)) = true) ↔
      (l ∈ d1 ∨ l ∈ d2) := by
  induction d1 generalizing d2 with
  | nil =>
    cases d2 with
    | nil => simp
    | cons b t => simp at h
  | cons a t ih =>
    cases d2 with
    | nil => simp at h
    | cons b t2 =>
      have ht : t.length = t2.length := by simpa using h
      simp only [List.zip_cons_cons, List.any_cons, Bool.or_eq_true, decide_eq_true_eq,
        ih t2 ht, List.mem_cons]
      constructor
      · rintro (⟨h1 | h1⟩ | h1 | h1) <;> simp [h1]
      · rintro ((h1 | h1) | h1 | h1) <;> simp [h1]

/-- Counting pairwise agreement of a list with itself is plain counting. -/
theorem zip_self_countP (d : List ℤ) (l : ℤ) :
    (d.zip d).countP (fun p => decide (p.1 = l) && decide (p.2 = l)) =
      d.countP (fun a => decide (a = l)) := by
  induction d with
  | nil => rfl
  | cons a t ih => simp [List.zip_cons_cons, List.countP_cons, ih]

/-- A present label has a positive count. -/
theorem countP_mem_pos {d : List ℤ} {l : ℤ} (h : l ∈ d) :
    0 < d.countP (fun a => decide (a = l)) := by
  rw [List.countP_pos_iff]
  exact ⟨l, h, by simp⟩

/-! ## Claim theorems -/

/-- Claim C10 (confirmed): with all voxel-size components nonzero, `vox2MNI`
and `MNI2vox` are mutually inverse: `MNI2vox (vox2MNI v s) s = v` and
`vox2MNI (MNI2vox m s) s = m`. -/
theorem vox2MNI_MNI2vox_roundtrip (v m s : ℚ × ℚ × ℚ)
    (h1 : s.1 ≠ 0) (h2 : s.2.1 ≠ 0) (h3 : s.2.2 ≠ 0) :
    MNI2vox (vox2MNI v s) s = v ∧ vox2MNI (MNI2vox m s) s = m := by
  obtain ⟨v1, v2, v3⟩ := v
  obtain ⟨m1, m2, m3⟩ := m
  obtain ⟨s1, s2, s3⟩ := s
  simp only at h1 h2 h3
  constructor <;>
    · simp only [vox2MNI, MNI2vox, Prod.mk.injEq]
      refine ⟨?_, ?_, ?_⟩ <;> field_simp <;> ring

/-- Witness for claim C10 at `v = (1,2,3)`, `m = (4,6,8)`, `s = (2,2,2)`. -/
theorem vox2MNI_MNI2vox_roundtrip_witness :
    MNI2vox (vox2MNI (1, 2, 3) (2, 2, 2)) (2, 2, 2) = ((1 : ℚ), (2 : ℚ), (3 : ℚ)) ∧
      vox2MNI (MNI2vox (4, 6, 8) (2, 2, 2)) (2, 2, 2) = ((4 : ℚ), (6 : ℚ), (8 : ℚ)) :=
  vox2MNI_MNI2vox_roundtrip (1, 2, 3) (4, 6, 8) (2, 2, 2)
    (by norm_num) (by norm_num) (by norm_num)

/-- Claim C8 (confirmed): the scenario
`mergeHemispheres(left=[1,NaN,3], right=[2,4,NaN], method=single, default
weights)` returns exactly `[1.5, 4, 3]`: equal-weight average where both
sides are present, the present value where one side is missing. -/
theorem hemi_merge_single_scenario :
    hemi_merge [some 1, none, some 3] [some 2, some 4, none] "single" none =
      .ok [some (3 / 2), some 4, some 3] := by
  simp [hemi_merge, mergeSingle, defaultWeight, fdivq, zeroToNaN]
  norm_num

/-- Claim C4 counterexample: on `left = [-1]`, `right = [1]` — both sides
present — the claim prescribes the average `(-1+1)/2 = 0`, but
`mergeHemispheres(both)` returns NaN: the final replacement step turns the
exact-zero average into NaN. -/
theorem hemi_merge_both_zero_average_counterexample :
    hemi_merge [some (-1)] [some 1] "both" none = .ok [none] ∧
      (none : FF) ≠ some (((-1) + 1 : ℚ) / 2) := by
  constructor
  · simp [hemi_merge, mergeBoth, defaultWeight, fadd, fmulw, fdiv, zeroToNaN]
  · simp

/-- Per-subject evaluation of the `both` branch under default weights. -/
theorem mergeBoth_default_eq_bothSpec (a b : FF) :
    zeroToNaN (mergeBoth a b (defaultWeight a b)) = bothSpec a b := by
  cases a with
  | none =>
    cases b <;> simp [mergeBoth, defaultWeight, fmulw, fadd, fdiv, zeroToNaN, bothSpec]
  | some x =>
    cases b with
    | none => simp [mergeBoth, defaultWeight, fmulw, fadd, fdiv, zeroToNaN, bothSpec]
    | some y =>
      have hw : defaultWeight (some x) (some y) = (1, 1) := by
        simp [defaultWeight]
      rw [hw]
      simp only [mergeBoth]
      rw [if_neg (by norm_num : ¬((1 : ℚ) + 1 < 2))]
      have hfa : fadd (fmulw (some x) 1) (fmulw (some y) 1) = some (x + y) := by
        simp [fmulw, fadd]
      rw [hfa]
      simp only [fdiv]
      rw [if_neg (by norm_num : ((1 : ℚ) + 1) ≠ 0)]
      rw [(by norm_num : ((1 : ℚ) + 1) = 2)]
      simp only [zeroToNaN, bothSpec, Option.some.injEq]
      by_cases hxy : x + y = 0
      · simp [hxy]
      · have h2 : (x + y) / 2 ≠ 0 := div_ne_zero hxy (by norm_num)
        simp [hxy, h2]

/-- Mapping an elementwise operation over a list zipped with its own
elementwise-derived companion collapses to a single map. -/
theorem map_zip_map_self {α β γ δ : Type} (zs : List α) (g : α → β)
    (f : α × β → γ) (h : γ → δ) :
    ((zs.zip (zs.map g)).map f).map h = zs.map (fun a => h (f (a, g a))) := by
  induction zs with
  | nil => rfl
  | cons a t ih => simp [List.zip_cons_cons, ih]

/-- Claim C4 (amended): for equally long vectors, `mergeHemispheres(both)`
with default weights returns, per subject, NaN when at least one side is
missing OR when both are present and their average is exactly 0 (the final
zero-to-NaN replacement), and otherwise the average of the two present
values. -/
theorem hemi_merge_both_default_weights (l r : List FF) (h : l.length = r.length) :
    hemi_merge l r "both" none =
      .ok ((l.zip r).map (fun p => bothSpec p.1 p.2)) := by
  unfold hemi_merge
  rw [if_neg (by simp [h])]
  simp only [Option.getD_none]
  rw [if_neg (by decide : ¬(("both" : String) = "single"))]
  rw [if_pos trivial]
  rw [map_zip_map_self (l.zip r) (fun p => defaultWeight p.1 p.2)
    (fun p => mergeBoth p.1.1 p.1.2 p.2) zeroToNaN]
  congr 1
  refine List.map_congr_left (fun p _ => ?_)
  exact mergeBoth_default_eq_bothSpec p.1 p.2

/-- Witness for claim C4 at `left = [1]`, `right = [2]`. -/
theorem hemi_merge_both_default_weights_witness :
    hemi_merge [some 1] [some 2] "both" none =
      .ok (([some 1].zip [some 2]).map (fun p => bothSpec p.1 p.2)) :=
  hemi_merge_both_default_weights [some 1] [some 2] rfl

/-- Claim C9 (confirmed): whatever the inputs, method and weights, a merged
vector returned by `hemi_merge` never contains an exact 0: the final step
replaces every zero entry (a subject whose computed merged value is exactly
0) with NaN. -/
theorem hemi_merge_never_zero (left right : List FF) (meth : String)
    (weight : Option (List (ℚ × ℚ))) (out : List FF)
    (h : hemi_merge left right meth weight = .ok out) : some 0 ∉ out := by
  unfold hemi_merge at h
  dsimp only at h
  split_ifs at h
  all_goals
    injection h with h4
    subst h4
    intro hm
    rcases List.mem_map.1 hm with ⟨y, _, hy⟩
    exact zeroToNaN_ne_some_zero y hy

/-- Witness for claim C9: `mergeHemispheres(left=[-1], right=[1], both)`
returns `[NaN]`, and indeed no exact 0. -/
theorem hemi_merge_never_zero_witness : some (0 : ℚ) ∉ [(none : FF)] :=
  hemi_merge_never_zero [some (-1)] [some 1] "both" none [none]
    (by simp [hemi_merge, mergeBoth, defaultWeight, fadd, fmulw, fdiv, zeroToNaN])

/-- Claim C1 counterexample: on `A = B = [2]` with `labelSet = [2]` the claim
prescribes Dice 1 at label 2 (present in both volumes, identical volumes),
but `caldice` compares against `i+1 = 1` — a label absent from both — and
returns NaN. -/
theorem caldice_label_values_counterexample :
    caldice [2] [2] [2] = [none] ∧ diceSpecList [2] [2] [2] = [some 1] := by
  constructor
  · simp [caldice, List.range_succ]
  · simp [diceSpecList, diceSpecAt, List.countP_cons]
    norm_num

/-- Claim C1 (amended): for equally shaped volumes, the i-th entry of
`caldice(A, B, labelSet)` is the Dice coefficient at label VALUE `i+1`
(the position index plus one — the entries of `labelSet` are ignored, only
its length is read): `2|{A=i+1}∩{B=i+1}| / (|{A=i+1}|+|{B=i+1}|)`, and NaN
exactly when `i+1` is absent from the union of both volumes; in particular
`caldice(A, A, labelSet)` is 1 at position `i` whenever `i+1` occurs in `A`. -/
theorem caldice_positional (d1 d2 lab : List ℤ) (hlen : d1.length = d2.length)
    (i : ℕ) (hi : i < lab.length) :
    (caldice d1 d2 lab)[i]? = some (diceSpecAt d1 d2 ((i : ℤ) + 1)) ∧
      (((i : ℤ) + 1) ∈ d1 → (caldice d1 d1 lab)[i]? = some (some 1)) := by
  have hget : ∀ (a b : List ℤ), (caldice a b lab)[i]? = some (
      if (a.zip b).any (fun p => decide (p.1 = ((i : ℤ) + 1)) || decide (p.2 = ((i : ℤ) + 1))) then
        some (2 * ((a.zip b).countP
            (fun p => decide (p.1 = ((i : ℤ) + 1)) && decide (p.2 = ((i : ℤ) + 1))) : ℚ) /
          ((a.countP (fun x => decide (x = ((i : ℤ) + 1))) : ℚ) +
            (b.countP (fun x => decide (x = ((i : ℤ) + 1))) : ℚ)))
      else none) := by
    intro a b
    unfold caldice
    rw [List.getElem?_map, List.getElem?_range hi]
    rfl
  constructor
  · rw [hget d1 d2]
    unfold diceSpecAt
    congr 1
    exact if_congr (zip_any_mem d1 d2 _ hlen) rfl rfl
  · intro hmem
    rw [hget d1 d1]
    have hany : ((d1.zip d1).any
        (fun p => decide (p.1 = ((i : ℤ) + 1)) || decide (p.2 = ((i : ℤ) + 1)))) = true :=
      (zip_any_mem d1 d1 _ rfl).mpr (Or.inl hmem)
    rw [if_pos hany, zip_self_countP]
    have hc : 0 < d1.countP (fun x => decide (x = ((i : ℤ) + 1))) := countP_mem_pos hmem
    have hcq : (0 : ℚ) < (d1.countP (fun x => decide (x = ((i : ℤ) + 1))) : ℚ) := by
      exact_mod_cast hc
    simp only [Option.some.injEq]
    rw [div_eq_one_iff_eq (ne_of_gt (by linarith))]
    ring

/-- Witness for claim C1 at `A = [1,2]`, `B = [1,1]`, `labelSet = [1,2]`,
position 0. -/
theorem caldice_positional_witness :
    (caldice [1, 2] [1, 1] [1, 2])[0]? = some (diceSpecAt [1, 2] [1, 1] (((0 : ℕ) : ℤ) + 1)) ∧
      ((((0 : ℕ) : ℤ) + 1) ∈ [(1 : ℤ), 2] →
        (caldice [1, 2] [1, 2] [1, 2])[0]? = some (some 1)) :=
  caldice_positional [1, 2] [1, 1] [1, 2] rfl 0 (by decide)

/-- Claim C6 counterexample: on the NaN-free vector `[5]` with thresholds
`[-2, 2]`, `Q1 = Q3 = 5` and `IQR = 0`, so the lower bound `Q1 - 2·IQR = 5`
equals the upper bound; the entry `5` is equal to the lower bound, which the
claim says is retained, yet the code marks it (`5 ≥ upper bound`) and
returns count 1. -/
theorem removeoutlier_iqr_lower_bound_counterexample :
    iqrLowBound [5] (-2) = 5 ∧ removeoutlier_iqr [5] (-2, 2) = (1, [none]) := by
  constructor
  · norm_num [iqrLowBound, percentile, interpAt, nthClamp, List.insertionSort,
      List.orderedInsert]
  · norm_num [removeoutlier_iqr, percentile, interpAt, nthClamp, List.insertionSort,
      List.orderedInsert, List.countP_cons]

/-- Claim C6 (amended): `removeOutliers(iqr)` marks as NaN exactly the
entries outside the half-open interval
`[Q1 + low·IQR, Q3 + high·IQR)` — strictly below the lower bound or at or
above the upper bound; an entry equal to the lower bound is retained
WHENEVER the lower bound is strictly below the upper bound; and the returned
count equals the number of entries so marked. -/
theorem removeoutlier_iqr_halfopen (xs : List ℚ) (hne : xs ≠ []) (low high : ℚ) :
    (removeoutlier_iqr xs (low, high)).2.length = xs.length ∧
      (∀ i (h : i < xs.length),
        (removeoutlier_iqr xs (low, high)).2[i]? =
          some (if iqrLowBound xs low ≤ xs.get ⟨i, h⟩ ∧ xs.get ⟨i, h⟩ < iqrHighBound xs high
            then some (xs.get ⟨i, h⟩) else none)) ∧
      (iqrLowBound xs low < iqrHighBound xs high →
        ∀ i (h : i < xs.length), xs.get ⟨i, h⟩ = iqrLowBound xs low →
          (removeoutlier_iqr xs (low, high)).2[i]? = some (some (xs.get ⟨i, h⟩))) ∧
      (removeoutlier_iqr xs (low, high)).1 =
        ((removeoutlier_iqr xs (low, high)).2.filter (fun x => decide (x = none))).length := by
  have hsnd : (removeoutlier_iqr xs (low, high)).2 =
      xs.map (fun x => if (decide (x < iqrLowBound xs low) ||
        decide (iqrHighBound xs high ≤ x)) = true then none else some x) := rfl
  have hfst : (removeoutlier_iqr xs (low, high)).1 =
      xs.countP (fun x => decide (x < iqrLowBound xs low) ||
        decide (iqrHighBound xs high ≤ x)) := rfl
  have hpt : ∀ i (h : i < xs.length),
      (removeoutlier_iqr xs (low, high)).2[i]? =
        some (if iqrLowBound xs low ≤ xs.get ⟨i, h⟩ ∧ xs.get ⟨i, h⟩ < iqrHighBound xs high
          then some (xs.get ⟨i, h⟩) else none) := by
    intro i h
    rw [hsnd, List.getElem?_map, List.getElem?_eq_getElem h]
    simp only [Option.map_some', List.get_eq_getElem]
    by_cases hin : iqrLowBound xs low ≤ xs[i] ∧ xs[i] < iqrHighBound xs high
    · rw [if_pos hin, if_neg]
      simp [not_lt.2 hin.1, not_le.2 hin.2]
    · rw [if_neg hin, if_pos]
      rcases not_and_or.1 hin with h1 | h1
      · simp [not_le.1 h1]
      · simp [not_lt.1 h1]
  refine ⟨by rw [hsnd]; exact List.length_map _ _, hpt, ?_, ?_⟩
  · intro hlh i h hxeq
    rw [hpt i h, if_pos ⟨le_of_eq hxeq.symm, hxeq ▸ hlh⟩]
  · rw [hfst, hsnd, List.filter_map, List.length_map, List.countP_eq_length_filter]
    congr 1
    apply List.filter_congr
    intro x _
    by_cases hx : (decide (x < iqrLowBound xs low) || decide (iqrHighBound xs high ≤ x)) = true
    · simp [Function.comp, hx]
    · simp only [Function.comp, hx]
      simp at hx
      simp [hx]

/-- Witness for claim C6 at `xs = [0,1,2,3]`, thresholds `[-2, 2]`. -/
theorem removeoutlier_iqr_halfopen_witness :
    (removeoutlier_iqr [0, 1, 2, 3] (-2, 2)).2.length = ([0, 1, 2, 3] : List ℚ).length ∧
      (∀ i (h : i < ([0, 1, 2, 3] : List ℚ).length),
        (removeoutlier_iqr [0, 1, 2, 3] (-2, 2)).2[i]? =
          some (if iqrLowBound [0, 1, 2, 3] (-2) ≤ ([0, 1, 2, 3] : List ℚ).get ⟨i, h⟩ ∧
              ([0, 1, 2, 3] : List ℚ).get ⟨i, h⟩ < iqrHighBound [0, 1, 2, 3] 2
            then some (([0, 1, 2, 3] : List ℚ).get ⟨i, h⟩) else none)) ∧
      (iqrLowBound [0, 1, 2, 3] (-2) < iqrHighBound [0, 1, 2, 3] 2 →
        ∀ i (h : i < ([0, 1, 2, 3] : List ℚ).length),
          ([0, 1, 2, 3] : List ℚ).get ⟨i, h⟩ = iqrLowBound [0, 1, 2, 3] (-2) →
          (removeoutlier_iqr [0, 1, 2, 3] (-2, 2)).2[i]? =
            some (some (([0, 1, 2, 3] : List ℚ).get ⟨i, h⟩))) ∧
      (removeoutlier_iqr [0, 1, 2, 3] (-2, 2)).1 =
        ((removeoutlier_iqr [0, 1, 2, 3] (-2, 2)).2.filter
          (fun x => decide (x = none))).length :=
  removeoutlier_iqr_halfopen [0, 1, 2, 3] (by simp) (-2) 2

/-- Clamped indexing into a sorted nonempty list is monotone in the index. -/
theorem nthClamp_mono {s : List ℚ} (hs : List.Sorted (· ≤ ·) s) (hne : s ≠ [])
    {i j : ℕ} (hij : i ≤ j) : nthClamp s i ≤ nthClamp s j := by
  have hlen : 0 < s.length := List.length_pos.2 hne
  have hi2 : min i (s.length - 1) < s.length := by omega
  have hj2 : min j (s.length - 1) < s.length := by omega
  have h12 : min i (s.length - 1) ≤ min j (s.length - 1) := by omega
  unfold nthClamp
  rw [List.getD_eq_getElem?_getD, List.getElem?_eq_getElem hi2, Option.getD_some,
    List.getD_eq_getElem?_getD, List.getElem?_eq_getElem hj2, Option.getD_some]
  have := hs.rel_get_of_le (a := ⟨min i (s.length - 1), hi2⟩)
    (b := ⟨min j (s.length - 1), hj2⟩) (by simpa using h12)
  simpa using this

/-- Linear interpolation into a sorted nonempty list is monotone in the
position, for nonnegative positions. -/
theorem interpAt_mono {s : List ℚ} (hs : List.Sorted (· ≤ ·) s) (hne : s ≠ [])
    {p1 p2 : ℚ} (h0 : 0 ≤ p1) (h12 : p1 ≤ p2) : interpAt s p1 ≤ interpAt s p2 := by
  have h02 : 0 ≤ p2 := le_trans h0 h12
  have hf1 : (0 : ℤ) ≤ ⌊p1⌋ := Int.floor_nonneg.2 h0
  have hf2 : (0 : ℤ) ≤ ⌊p2⌋ := Int.floor_nonneg.2 h02
  have hi1le : ((⌊p1⌋.toNat : ℚ)) ≤ p1 := by
    have hfl := Int.floor_le p1
    rw [← Int.toNat_of_nonneg hf1] at hfl
    exact_mod_cast hfl
  have hi1gt : p1 < (⌊p1⌋.toNat : ℚ) + 1 := by
    have hfl := Int.lt_floor_add_one p1
    rw [← Int.toNat_of_nonneg hf1] at hfl
    exact_mod_cast hfl
  have hi2le : ((⌊p2⌋.toNat : ℚ)) ≤ p2 := by
    have hfl := Int.floor_le p2
    rw [← Int.toNat_of_nonneg hf2] at hfl
    exact_mod_cast hfl
  have hi12 : ⌊p1⌋.toNat ≤ ⌊p2⌋.toNat := Int.toNat_le_toNat (Int.floor_le_floor h12)
  unfold interpAt
  rcases eq_or_lt_of_le hi12 with heq | hlt
  · rw [← heq]
    have hd : 0 ≤ nthClamp s (⌊p1⌋.toNat + 1) - nthClamp s ⌊p1⌋.toNat :=
      sub_nonneg.2 (nthClamp_mono hs hne (Nat.le_succ _))
    nlinarith [hd, h12]
  · have hd1 : 0 ≤ nthClamp s (⌊p1⌋.toNat + 1) - nthClamp s ⌊p1⌋.toNat :=
      sub_nonneg.2 (nthClamp_mono hs hne (Nat.le_succ _))
    have hd2 : 0 ≤ nthClamp s (⌊p2⌋.toNat + 1) - nthClamp s ⌊p2⌋.toNat :=
      sub_nonneg.2 (nthClamp_mono hs hne (Nat.le_succ _))
    have h1 : nthClamp s ⌊p1⌋.toNat +
        (p1 - (⌊p1⌋.toNat : ℚ)) * (nthClamp s (⌊p1⌋.toNat + 1) - nthClamp s ⌊p1⌋.toNat) ≤
          nthClamp s (⌊p1⌋.toNat + 1) := by nlinarith [hd1, hi1gt]
    have h2 : nthClamp s (⌊p1⌋.toNat + 1) ≤ nthClamp s ⌊p2⌋.toNat :=
      nthClamp_mono hs hne hlt
    have h3 : nthClamp s ⌊p2⌋.toNat ≤ nthClamp s ⌊p2⌋.toNat +
        (p2 - (⌊p2⌋.toNat : ℚ)) * (nthClamp s (⌊p2⌋.toNat + 1) - nthClamp s ⌊p2⌋.toNat) := by
      nlinarith [hd2, hi2le]
    linarith

/-- numpy's 25th percentile never exceeds the 75th: the IQR is nonnegative. -/
theorem percentile_q1_le_q3 (xs : List ℚ) (hne : xs ≠ []) :
    percentile xs 25 ≤ percentile xs 75 := by
  unfold percentile
  have hs : List.Sorted (· ≤ ·) (List.insertionSort (· ≤ ·) xs) :=
    List.sorted_insertionSort _ _
  have hne2 : List.insertionSort (· ≤ ·) xs ≠ [] := by
    intro hnil
    apply hne
    have hperm := List.perm_insertionSort (· ≤ ·) xs
    rw [hnil] at hperm
    exact (List.Perm.nil_eq hperm).symm
  have hlen : (0 : ℚ) ≤ (xs.length : ℚ) - 1 := by
    have h1 : 1 ≤ xs.length := List.length_pos.2 hne
    have h2 : (1 : ℚ) ≤ (xs.length : ℚ) := by exact_mod_cast h1
    linarith
  apply interpAt_mono hs hne2
  · positivity
  · nlinarith [hlen]

/-- Claim C7 (confirmed): for a NaN-free nonempty vector, narrowing the iqr
threshold pair (raising `low`, lowering `high`) never decreases the
removed-entry count returned by `removeOutliers(iqr)`. -/
theorem removeoutlier_iqr_monotone (xs : List ℚ) (hne : xs ≠ [])
    (low high low2 high2 : ℚ) (hlow : low ≤ low2) (hhigh : high2 ≤ high) :
    (removeoutlier_iqr xs (low, high)).1 ≤ (removeoutlier_iqr xs (low2, high2)).1 := by
  have hiqr : 0 ≤ percentile xs 75 - percentile xs 25 :=
    sub_nonneg.2 (percentile_q1_le_q3 xs hne)
  simp only [removeoutlier_iqr]
  apply List.countP_mono_left
  intro x _ hx
  simp only [Bool.or_eq_true, decide_eq_true_eq] at hx ⊢
  rcases hx with h | h
  · left
    have hb : percentile xs 25 + low * (percentile xs 75 - percentile xs 25) ≤
        percentile xs 25 + low2 * (percentile xs 75 - percentile xs 25) := by
      nlinarith [hiqr, hlow]
    exact lt_of_lt_of_le h hb
  · right
    have hb : percentile xs 75 + high2 * (percentile xs 75 - percentile xs 25) ≤
        percentile xs 75 + high * (percentile xs 75 - percentile xs 25) := by
      nlinarith [hiqr, hhigh]
    exact le_trans hb h

/-- Witness for claim C7 at `xs = [0,1,2,3]`, widening `(-2,2)` against the
narrower `(0,0)`. -/
theorem removeoutlier_iqr_monotone_witness :
    (removeoutlier_iqr [0, 1, 2, 3] (-2, 2)).1 ≤ (removeoutlier_iqr [0, 1, 2, 3] (0, 0)).1 :=
  removeoutlier_iqr_monotone [0, 1, 2, 3] (by simp) (-2) 2 0 0 (by norm_num) (by norm_num)

/-- Claim C3 (code bug): on two disjoint single-voxel ROIs — label 1 at
voxel (0,0,0), label 2 at voxel (0,0,3), voxel size default [2,2,2] —
`roidistance(extloc='center', metric='euclidean')` produces the SQUARED
off-diagonal distance 12, whereas the claim (centroid of ROI voxel indices
mapped through the fixed affine) prescribes squared distance 36: the
`center` extraction collapses `np.mean(np.transpose(np.nonzero(x)))` to the
scalar grand mean of all coordinate components ((0+0+3)/3 = 1 for ROI 2,
giving voxel (1,1,1) instead of (0,0,3)).  Since the square root is strictly
monotone on nonnegatives, 12 ≠ 36 means the returned distances differ. -/
theorem roidistance_center_scalar_mean_bug :
    roidistance_sq (PositionRelationship.init maskC3 none) targC3 "center" =
        .ok [[some 0, some 12], [some 12, some 0]] ∧
      sqdist3 (vox2MNI (0, 0, 0) (2, 2, 2)) (vox2MNI (0, 0, 3) (2, 2, 2)) = 36 ∧
      (12 : ℚ) ≠ 36 := by
  refine ⟨?_, by norm_num [sqdist3, vox2MNI], by norm_num⟩
  have hcp : ¬(("center" : String) = "peak") := by decide
  norm_num [roidistance_sq, PositionRelationship.init, get_coordinate, maskC3, targC3,
    npUnique, List.insertionSort, List.orderedInsert, List.dedup_cons_of_mem,
    List.dedup_cons_of_not_mem, firstArgmax, vox2MNI, sqdist3, List.range_succ,
    List.countP_cons, hcp]

/-- Claim C5 (code bug): for any `cvmeth` outside {kfold, shufflesplit} the
local `cvmethod` is never assigned — the dispatch has no else branch — so
the call fails with UnboundLocalError at the sklearn call site, an
interpreter error rather than the explicitly raised unknown-method exception
every other dispatch in tools.py uses. -/
theorem permutation_cross_validation_unknown_cvmeth (cvmeth : String)
    (h1 : cvmeth ≠ "kfold") (h2 : cvmeth ≠ "shufflesplit")
    (nsubj n_fold : ℕ) (isshuffle : Bool) :
    permutation_cross_validation_cv nsubj n_fold isshuffle cvmeth =
      .error (.unboundLocal "cvmethod") := by
  simp [permutation_cross_validation_cv, h1, h2]

/-- Witness for claim C5 at `cvmeth = "loocv"`. -/
theorem permutation_cross_validation_unknown_cvmeth_witness :
    permutation_cross_validation_cv 10 3 true "loocv" =
      .error (.unboundLocal "cvmethod") :=
  permutation_cross_validation_unknown_cvmeth "loocv" (by decide) (by decide) 10 3 true

/-- Claim C2 (code bug): every call of `template_overlap` on an object built
by `PositionRelationship.__init__` fails with AttributeError, because the
shape guard on analysebase.py line 395 reads `self._targdata`, which the
constructor never assigns — no overlap matrix is ever returned, for any
template and any mode. -/
theorem template_overlap_attribute_error (roimask : List (Vox3 × ℤ))
    (roinumber : Option ℕ) (template : List (Vox3 × ℤ)) (para : String) :
    template_overlap (PositionRelationship.init roimask roinumber) template para =
      .error (.attributeError "_targdata") := rfl
